import Mathlib

/-!
# Verification of the unipi-neuron board synchronization core

A shallow embedding of `src/Board.js` (class `Board`): register decoding,
group capability discovery, the digital/analog state store with change
notification, the analog calibration promise chain, the `set` entry point
with its coil/register write-and-verify retry chain, and address
validation.

Conventions of the embedding:
* JavaScript numbers appearing as register words, counts and indices are
  natural numbers; analog values and the values held in the state store
  are rationals (an exact model of the JS float arithmetic used here).
* `NaN` produced by failed `parseInt`/arithmetic on `undefined` is
  modelled by `Option` (`none` = NaN / undefined) where it can occur.
* The state object `this.state` is an association list from id strings to
  values; property lookup takes the most recent binding.
* Promise chains are flattened into explicit `Except`-valued settlement
  states, `Except.error` modelling a rejected promise and `Except.ok`
  a fulfilled one (fulfilled with `undefined` is `Except.ok none`).
* The Modbus transport is an oracle `reads : ℕ → ℕ → Option (List ℕ)`
  mapping (start address, word count) to the read outcome, `none`
  modelling an asynchronous read failure.
-/

namespace Board

/-- The `this.state` object of `Board`: id string → stored value. -/
abbrev StateMap := List (String × ℚ)

/-- Model of `Board.getState(id)`, i.e. `return this.state[id];` — a plain property
lookup that never throws; `none` models `undefined`. -/
def getState (st : StateMap) (id : String) : Option ℚ :=
  (st.find? (fun p => p.1 == id)).map (fun p => p.2)

/-- Model of `Board.validate(id)`: `if (this.getState(id) === undefined) throw new
SyntaxError('Unknown ID: ' + id);`. -/
def validate (st : StateMap) (id : String) : Except String Unit :=
  if getState st id = none then Except.error ("Unknown ID: " ++ id) else Except.ok ()

/-- Model of `Board.dec2bin(dec)`: the 16-character binary string of a register
word, most significant bit first (`('0...0' + dec.toString(2)).slice(-16)`),
modelled as the list of its bit values.  For any input the `slice(-16)`
keeps exactly the low 16 bits, which is what the formula below yields. -/
def dec2bin (w : ℕ) : List ℕ :=
  (List.range 16).map (fun k => w / 2 ^ (15 - k) % 2)

/-- Model of `parseInt(str, 2)` on a binary digit string, working on the digit
list: most-significant-first accumulation. -/
def binToNat (l : List ℕ) : ℕ :=
  l.foldl (fun acc b => acc * 2 + b) 0

/-- The capability register address for 0-based group index `i`
(`let start = 1001 + (i * 100);` in the `Board` constructor). -/
def capabilityRegister (i : ℕ) : ℕ := 1001 + i * 100

/-- Group capability discovery from the first capability register word
(constructor of `Board`):
`di = parseInt(bin.slice(0, 8), 2)`, `do = parseInt(bin.slice(8, 16), 2)`
where `bin = dec2bin(data.data[0])`.  Returns `(di, do)`. -/
def groupCapabilities (w : ℕ) : ℕ × ℕ :=
  let bin := dec2bin w
  (binToNat (bin.take 8), binToNat (bin.drop 8))

/-- Helper: the `n`-digit most-significant-first binary digit list of `v`. -/
def msbDigits (n v : ℕ) : List ℕ :=
  (List.range n).map (fun k => v / 2 ^ (n - 1 - k) % 2)

/-- One iteration of the loop inside `Board.storeDigitalState`: for index
`i` (0-based), with `arr` the reversed binary digit array, the loop body
```
const id = prefix + '.' + (i + 1);
const value = parseInt(arr[i]);
const currentValue = this.getState(id);
if (currentValue !== value) {
    this.state[id] = value;
    if (currentValue !== undefined) { this.emit('update', id, value.toString()); }
}
```
acting on the accumulated (state, emitted events) pair.  The emitted
event value `value.toString()` is modelled by the numeric value. -/
def storeDigitalStep (pfx : String) (arr : List ℕ) (acc : StateMap × List (String × ℚ))
    (i : ℕ) : StateMap × List (String × ℚ) :=
  let id := pfx ++ "." ++ toString (i + 1)
  let value : ℚ := (arr.getD i 0 : ℕ)
  let currentValue := getState acc.1 id
  if currentValue ≠ some value then
    ((id, value) :: acc.1,
      if currentValue ≠ none then acc.2 ++ [(id, value)] else acc.2)
  else acc

/-- Model of `Board.storeDigitalState(prefix, value, length = 16)`: decode the
register word into bits (`dec2bin` then reverse, so the least significant
bit comes first) and run the store loop for indices `0 ≤ i < length`.
Returns the updated state together with the list of `'update'` events
emitted, in order. -/
def storeDigitalState (st : StateMap) (pfx : String) (value : ℕ) (length : ℕ := 16) :
    StateMap × List (String × ℚ) :=
  let arr := (dec2bin value).reverse
  (List.range length).foldl (storeDigitalStep pfx arr) (st, [])

/-- One transport write issued by the `_writeCoil` / `_writeRegister`
retry chain: which primitive was used, the target address (`none` models
a `NaN` address produced by failed parsing), the `retries` value of the
call that issued it, and the delay in milliseconds of the verification
check it schedules (`none` when `retries < 5` fails and no check is
scheduled). -/
structure WriteEvent where
  isCoil : Bool
  address : Option ℤ
  value : ℚ
  retry : ℕ
  checkDelay : Option ℕ
deriving DecidableEq

/-- The write-and-verify retry chain shared verbatim by
`Board._writeCoil` and `Board._writeRegister`: issue the transport write
(its own failure is caught and only logged); if `retries < 5`, schedule a
verification check after `100 * (retries + 1)` ms which, when the
observed state still differs from the desired value, increments the retry
count and recurses.  `differs r` is the oracle telling whether the check
scheduled by the call with retry count `r` observes a value different
from the desired one.  The result is the ordered list of transport
writes; no error is ever surfaced. -/
def writeChain (isCoil : Bool) (addr : Option ℤ) (value : ℚ) (differs : ℕ → Bool) (r : ℕ) :
    List WriteEvent :=
  if h : r < 5 then
    ⟨isCoil, addr, value, r, some (100 * (r + 1))⟩ ::
      (if differs r then writeChain isCoil addr value differs (r + 1) else [])
  else [⟨isCoil, addr, value, r, none⟩]
termination_by 5 - r
decreasing_by omega

/-- Model of `String.prototype.split` with a single-character separator, as
`Board.set` uses it (`id.split('.')`, `arr[0].split('-')`): structural
recursion over the character data. -/
def jsSplitAux (sep : Char) : List Char → List Char → List (List Char)
  | [], acc => [acc.reverse]
  | c :: cs, acc =>
      if c = sep then acc.reverse :: jsSplitAux sep cs []
      else jsSplitAux sep cs (c :: acc)

/-- Model of `s.split(sep)` for a one-character separator. -/
def jsSplit (s : String) (sep : Char) : List String :=
  (jsSplitAux sep s.data []).map String.mk

/-- The separator `'.'` of `id.split('.')`. -/
def dotChar : Char := Char.ofNat 46

/-- The separator `'-'` of `arr[0].split('-')`. -/
def dashChar : Char := Char.ofNat 45

/-- Model of `s.substring(0, s.length - 1)`. -/
def jsDropLast (s : String) : String := String.mk s.data.dropLast

/-- Model of `s.toLowerCase()`. -/
def jsToLower (s : String) : String := String.mk (s.data.map Char.toLower)

/-- Model of `parseInt` applied to the final character of a string
(`arr[0].substr(arr[0].length - 1, 1)` in `Board.set`); `none` is `NaN`. -/
def parseIntLastChar (s : String) : Option ℤ :=
  match s.data.getLast? with
  | none => none
  | some c => if c.isDigit then some ((c.toNat - 48 : ℕ) : ℤ) else none

/-- JS numeric coercion of the `num` id component (`arr[1]`), as used in
`(num - 1)`: a nonempty digit run parses to its value, anything else is
`NaN` (`none`). -/
def jsStringToNumber (s : String) : Option ℤ :=
  if s.data ≠ [] ∧ s.data.all Char.isDigit then
    some (Int.ofNat (s.data.foldl (fun a c => a * 10 + (c.toNat - 48)) 0))
  else none

/-- The `group` local of `Board.set`: the last character of the part
before the dot, parsed as a number. -/
def setGroup (id : String) : Option ℤ :=
  parseIntLastChar ((jsSplit id dotChar).getD 0 "")

/-- The `num` local of `Board.set`: the part after the dot. -/
def setNum (id : String) : Option String :=
  (jsSplit id dotChar).get? 1

/-- The `type` local of `Board.set`: from the part before the dot, take
the piece before any dash, drop its final character, lowercase. -/
def setType (id : String) : String :=
  let pin := ((jsSplit ((jsSplit id dotChar).getD 0 "") dashChar).getD 0 "")
  jsToLower (jsDropLast pin)

/-- Model of `Board.set(id, value)`.  `groups0` carries
`(this.groups[0].di, this.groups[0].do)` when group 0 was discovered
(`none` models an undefined `this.groups[0]`, whose field access would
throw).  `differs` is the verification oracle threaded to the retry
chain.  The result is either the synchronously thrown error or the pair
(log messages, transport writes); `set` touches neither `this.state` nor
`this.counter`, so the returned effects are its entire behaviour. -/
def set (st : StateMap) (groups0 : Option (ℤ × ℤ)) (differs : ℕ → Bool)
    (id : String) (value : ℚ) : Except String (List String × List WriteEvent) :=
  match validate st id with
  | Except.error e => Except.error e
  | Except.ok () =>
    let group := setGroup id
    let num := setNum id
    let ty := setType id
    if ty = "di" then Except.ok (["Cannot set state on digital input"], [])
    else if ty = "ai" then Except.ok (["Cannot set state on analog input"], [])
    else if ty = "do" then
      let coilId : Option ℤ :=
        match group, num.bind jsStringToNumber with
        | some g, some n => some ((g - 1) * 100 + (n - 1))
        | _, _ => none
      Except.ok ([], writeChain true coilId value differs 0)
    else if ty = "led" ∧ group = some 1 then
      match groups0 with
      | none => Except.error "TypeError: this.groups[0] is undefined"
      | some g0 =>
        let coilId : Option ℤ :=
          (num.bind jsStringToNumber).map (fun n => g0.2 + g0.1 + (n - 1))
        Except.ok ([], writeChain true coilId value differs 0)
    else if ty = "ao" then
      Except.ok ([], [])
    else Except.ok ([], [])

/-- Model of `mathjs.round(x, 2)`: round to two decimal places. -/
def round2 (q : ℚ) : ℚ := (round (q * 100) : ℤ) / 100

/-- The settled state of a transport read promise: `Except.error`
models rejection, `Except.ok (some l)` fulfilment with register data. -/
def promiseOf (r : Option (List ℕ)) : Except Unit (Option (List ℕ)) :=
  match r with
  | none => Except.error ()
  | some l => Except.ok (some l)

/-- The address of the offset/deviation register pair read by the third
`.then` of the group-1 calibration chain:
`(mode !== 1 ? 1020 : 1022) + (prefix === 'AO' ? 0 : 5)`. -/
def pairAddr (mode : ℕ) (pfx : String) : ℕ :=
  (if mode ≠ 1 then 1020 else 1022) + (if pfx = "AO" then 0 else 5)

/-- The group-1 calibration promise chain of `Board.storeAnalogueState`
(`readHoldingRegisters(1019, 1)` … final `.then`), flattened.  Each
`.then` handler that begins with `data.data[0]` throws a `TypeError`
when the incoming value is `undefined` (which the preceding `.catch`
produces after swallowing a rejection), so the poisoned chain falls
through to the final `.catch` and the result is never computed.  The
`catched` flag only gates logging and is not modelled.  Returns the
`result` value computed by the final handler, or `none` when that
handler aborted. -/
def calResult (reads : ℕ → ℕ → Option (List ℕ)) (pfx : String) (group : ℕ) (raw : ℕ) :
    Option ℚ :=
  let s1 : ℕ × Except Unit (Option (List ℕ)) :=
    match promiseOf (reads 1019 1) with
    | Except.ok none => (0, Except.error ())
    | Except.ok (some l) => (l.getD 0 0, promiseOf (reads 1009 1))
    | Except.error e => (0, Except.error e)
  let mode := s1.1
  let s2 : Except Unit (Option (List ℕ)) :=
    match s1.2 with
    | Except.error _ => Except.ok none
    | Except.ok d => Except.ok d
  let s3 : ℕ × Except Unit (Option (List ℕ)) :=
    match s2 with
    | Except.ok none => (0, Except.error ())
    | Except.ok (some l) => (l.getD 0 0, promiseOf (reads 5 1))
    | Except.error e => (0, Except.error e)
  let vref := s3.1
  let s4 : Except Unit (Option (List ℕ)) :=
    match s3.2 with
    | Except.error _ => Except.ok none
    | Except.ok d => Except.ok d
  let s5 : ℕ × Except Unit (Option (List ℕ)) :=
    match s4 with
    | Except.ok none => (0, Except.error ())
    | Except.ok (some l) =>
        (l.getD 0 0,
          if mode ≠ 1 then promiseOf (reads (1020 + (if pfx = "AO" then 0 else 5)) 2)
          else if mode = 1 ∧ group = 1 then
            promiseOf (reads (1022 + (if pfx = "AO" then 0 else 5)) 2)
          else Except.ok none)
    | Except.error e => (0, Except.error e)
  let vrefInt := s5.1
  let s6 : Except Unit (Option (List ℕ)) :=
    match s5.2 with
    | Except.error _ => Except.ok none
    | Except.ok d => Except.ok d
  match s6 with
  | Except.ok (some l) =>
      let dev := l.getD 0 0
      let offset := l.getD 1 0
      some (round2 (33 / 10 * ((vref : ℚ) / (vrefInt : ℚ)) *
        (if mode = 0 then 3 else if mode = 1 then 10 else 1) *
        ((raw : ℚ) / 4096) * (1 + (dev : ℚ) / 10000) + (offset : ℚ) / 1000))
  | _ => none

/-- Model of `Board.storeAnalogueState(prefix, group, id, value)`.  `id` is the
numeric channel argument (`1` at every call site).  For group 1 the
calibration chain computes `result` and the final handler runs
```
const currentValue = this.getState(id);
if (currentValue !== result) {
    this.state[`${prefix}${group}.${id}`] = result;
    if (currentValue !== undefined) { this.emit('update', id, result); }
}
```
note that the lookup key is the bare channel number `id` (coerced to the
property name `toString id`) while the store key is the full
`prefix + group + '.' + id` string.  For other groups `AO` raw values
are first converted by `value / 4000 * 10`.  Returns the updated state
and the list of `'update'` events `(id, result)` emitted. -/
def storeAnalogueState (st : StateMap) (pfx : String) (group : ℕ) (id : ℕ) (value : ℕ)
    (reads : ℕ → ℕ → Option (List ℕ)) : StateMap × List (ℕ × ℚ) :=
  if group = 1 then
    match calResult reads pfx group value with
    | some result =>
        let currentValue := getState st (toString id)
        if currentValue ≠ some result then
          ((pfx ++ toString group ++ "." ++ toString id, result) :: st,
            if currentValue ≠ none then [(id, result)] else [])
        else (st, [])
    | none => (st, [])
  else
    let v : ℚ := if pfx = "AO" then (value : ℚ) / 4000 * 10 else (value : ℚ)
    let currentValue := getState st (toString id)
    if currentValue ≠ some v then
      ((pfx ++ toString group ++ "." ++ toString id, v) :: st,
        if currentValue ≠ none then [(id, v)] else [])
    else (st, [])

/-- A transport oracle supplying the calibration registers the group-1
chain reads: mode at 1019, reference voltage at 1009, internal reference
at 5, and the (deviation, offset) pair for any two-word read. -/
def calReadsOracle (mode vref vrefInt dev offset : ℕ) : ℕ → ℕ → Option (List ℕ) :=
  fun a n =>
    if a = 1019 ∧ n = 1 then some [mode]
    else if a = 1009 ∧ n = 1 then some [vref]
    else if a = 5 ∧ n = 1 then some [vrefInt]
    else if n = 2 then some [dev, offset]
    else none

/-- The calibration formula exactly as the specification states it:
`round(3.3 * (vref/vrefInt) * scale * (raw/4096) * (1 + deviation/10000)
+ offset/1000, 2)` with `scale = 3` when mode is 0, `10` when mode is 1,
and `1` otherwise. -/
def specCalibration (mode vref vrefInt dev offset raw : ℕ) : ℚ :=
  round2 (33 / 10 * ((vref : ℚ) / (vrefInt : ℚ)) *
    (if mode = 0 then 3 else if mode = 1 then 10 else 1) *
    ((raw : ℚ) / 4096) * (1 + (dev : ℚ) / 10000) + (offset : ℚ) / 1000)

/-- The specification's reading of `getState`: validation is performed
before every `get`, so an id with no StateStore entry raises the
`Unknown ID` error synchronously and otherwise the stored value is
returned. -/
def specValidatedGetState (st : StateMap) (id : String) : Except String (Option ℚ) :=
  match validate st id with
  | Except.error e => Except.error e
  | Except.ok () => Except.ok (getState st id)

theorem msbDigits_zero (v : ℕ) : msbDigits 0 v = [] := rfl

theorem msbDigits_succ (n v : ℕ) :
    msbDigits (n + 1) v = msbDigits n (v / 2) ++ [v % 2] := by
  unfold msbDigits
  rw [List.range_succ, List.map_append]
  congr 1
  · apply List.map_congr_left
    intro k hk
    rw [List.mem_range] at hk
    have h1 : n + 1 - 1 - k = (n - 1 - k) + 1 := by omega
    rw [h1, pow_succ, mul_comm, ← Nat.div_div_eq_div_mul]
  · simp

theorem length_msbDigits (n v : ℕ) : (msbDigits n v).length = n := by
  simp [msbDigits]

theorem binToNat_append_singleton (l : List ℕ) (b : ℕ) :
    binToNat (l ++ [b]) = binToNat l * 2 + b := by
  simp [binToNat, List.foldl_append]

theorem binToNat_msbDigits : ∀ n v, v < 2 ^ n → binToNat (msbDigits n v) = v := by
  intro n
  induction n with
  | zero =>
    intro v hv
    interval_cases v
    rfl
  | succ n ih =>
    intro v hv
    rw [msbDigits_succ, binToNat_append_singleton, ih (v / 2) (by omega)]
    omega

theorem dec2bin_eq_msbDigits (w : ℕ) : dec2bin w = msbDigits 16 w := by
  unfold dec2bin msbDigits
  apply List.map_congr_left
  intro k _
  norm_num

/-- The 16 MSB-first digits of `w` split as high byte digits followed by
low byte digits. -/
theorem msbDigits_sixteen_split (w : ℕ) :
    msbDigits 16 w = msbDigits 8 (w / 2 ^ 8) ++ msbDigits 8 (w % 2 ^ 8) := by
  unfold msbDigits
  have h16 : (16 : ℕ) = 8 + 8 := rfl
  rw [h16, List.range_add, List.map_append, List.map_map]
  congr 1
  · apply List.map_congr_left
    intro k hk
    rw [List.mem_range] at hk
    have h1 : 8 + 8 - 1 - k = (8 - 1 - k) + 8 := by omega
    rw [h1, pow_add, mul_comm, ← Nat.div_div_eq_div_mul, Nat.div_div_eq_div_mul, mul_comm,
      ← Nat.div_div_eq_div_mul]
  · apply List.map_congr_left
    intro k hk
    rw [List.mem_range] at hk
    have h1 : 8 + 8 - 1 - (8 + k) = 8 - 1 - k := by omega
    simp only [Function.comp_apply, h1]
    have h2 : (2 : ℕ) ^ 8 = 2 ^ (8 - 1 - k) * 2 ^ (k + 1) := by
      rw [← pow_add]
      congr 1
      omega
    rw [h2, Nat.mod_mul_right_div_self, Nat.mod_mod_of_dvd]
    exact dvd_pow_self 2 (Nat.succ_ne_zero k)

theorem groupCapabilities_eq (w : ℕ) (hw : w < 2 ^ 16) :
    groupCapabilities w = (w / 2 ^ 8, w % 2 ^ 8) := by
  show (binToNat ((dec2bin w).take 8), binToNat ((dec2bin w).drop 8)) = _
  rw [dec2bin_eq_msbDigits, msbDigits_sixteen_split,
    List.take_left' (length_msbDigits 8 _), List.drop_left' (length_msbDigits 8 _),
    binToNat_msbDigits 8 (w / 2 ^ 8) (by omega),
    binToNat_msbDigits 8 (w % 2 ^ 8) (Nat.mod_lt w (by norm_num))]

theorem getState_cons (k : String) (v : ℚ) (st : StateMap) (id : String) :
    getState ((k, v) :: st) id = if k = id then some v else getState st id := by
  simp only [getState, List.find?_cons]
  by_cases h : k = id
  · simp [h]
  · have : (k == id) = false := by simpa using h
    simp [this, h]

/-- The reversed `dec2bin` digit array holds bit `i` of the word at
position `i`. -/
theorem dec2bin_reverse_getD (w i : ℕ) (hi : i < 16) :
    ((dec2bin w).reverse.getD i 0) = w / 2 ^ i % 2 := by
  have hlen : (dec2bin w).length = 16 := by simp [dec2bin]
  have hlen' : (dec2bin w).reverse.length = 16 := by simp [hlen]
  have hi' : i < (dec2bin w).reverse.length := by omega
  rw [List.getD_eq_getElem _ _ hi', List.getElem_reverse]
  simp only [dec2bin, List.getElem_map, List.getElem_range]
  congr 2
  simp [dec2bin] at hlen ⊢
  omega

theorem toString_nat_small_injective :
    ∀ a, a < 17 → ∀ b, b < 17 → a ≠ b → toString a ≠ toString b := by decide

theorem string_append_cancel_left {s t u : String} (h : s ++ t = s ++ u) : t = u := by
  have h2 : s.data ++ t.data = s.data ++ u.data := by
    simpa [String.data_append] using congrArg String.data h
  exact String.ext (List.append_cancel_left h2)

/-- Distinct (1-based, at most 16) indices give distinct id strings. -/
theorem digitalId_injective (pfx : String) (a b : ℕ) (ha : a < 17) (hb : b < 17)
    (hab : a ≠ b) : pfx ++ "." ++ toString a ≠ pfx ++ "." ++ toString b := by
  intro h
  exact toString_nat_small_injective a ha b hb hab (string_append_cancel_left h)

/-- After running the store loop for `L ≤ 16` indices, the entry for
I/O index `i + 1` holds the value of `arr[i]`, whatever the initial
accumulator was. -/
theorem storeDigital_fold_lookup (pfx : String) (arr : List ℕ) :
    ∀ L, L ≤ 16 → ∀ acc : StateMap × List (String × ℚ), ∀ i, i < L →
      getState ((List.range L).foldl (storeDigitalStep pfx arr) acc).1
          (pfx ++ "." ++ toString (i + 1)) = some ((arr.getD i 0 : ℕ) : ℚ) := by
  intro L
  induction L with
  | zero => intro _ _ i hi; omega
  | succ L ih =>
    intro hL acc i hi
    rw [List.range_succ, List.foldl_append, List.foldl_cons, List.foldl_nil]
    by_cases hiL : i = L
    · subst hiL
      simp only [storeDigitalStep]
      by_cases hcur : getState ((List.range i).foldl (storeDigitalStep pfx arr) acc).1
          (pfx ++ "." ++ toString (i + 1)) = some ((arr.getD i 0 : ℕ) : ℚ)
      · rw [if_neg (not_not_intro hcur)]
        exact hcur
      · rw [if_pos hcur]
        rw [getState_cons, if_pos rfl]
    · have hne : pfx ++ "." ++ toString (L + 1) ≠ pfx ++ "." ++ toString (i + 1) :=
        digitalId_injective pfx (L + 1) (i + 1) (by omega) (by omega) (by omega)
      simp only [storeDigitalStep]
      by_cases hcur : getState ((List.range L).foldl (storeDigitalStep pfx arr) acc).1
          (pfx ++ "." ++ toString (L + 1)) = some ((arr.getD L 0 : ℕ) : ℚ)
      · rw [if_neg (not_not_intro hcur)]
        exact ih (by omega) acc i (by omega)
      · rw [if_pos hcur, getState_cons, if_neg hne]
        exact ih (by omega) acc i (by omega)

/-- Re-encoding the low bits: summing bit `i` of `w` times `2 ^ i`
over `i < L` recovers the low `L` bits of `w`. -/
theorem bit_sum_eq_mod_pow (w : ℕ) : ∀ L, ∑ i ∈ Finset.range L, w / 2 ^ i % 2 * 2 ^ i = w % 2 ^ L := by
  intro L
  induction L with
  | zero => simp [Nat.mod_one]
  | succ L ih =>
    rw [Finset.sum_range_succ, ih, Nat.mod_pow_succ]
    ring

/-- The retry chain starting at retry count `r ≤ 5` issues at most
`6 - r` transport writes. -/
theorem writeChain_length_le (b : Bool) (a : Option ℤ) (v : ℚ) (d : ℕ → Bool) :
    ∀ n r, 5 - r = n → r ≤ 5 → (writeChain b a v d r).length ≤ 6 - r := by
  intro n
  induction n with
  | zero =>
    intro r hn hr
    have hr5 : r = 5 := by omega
    subst hr5
    rw [writeChain]
    simp
  | succ n ih =>
    intro r hn hr
    rw [writeChain, dif_pos (show r < 5 by omega)]
    by_cases hd : d r
    · rw [if_pos hd, List.length_cons]
      have := ih (r + 1) (by omega) (by omega)
      omega
    · rw [if_neg hd]
      simp
      omega

/-- The `k`-th write of the chain starting at retry count `r` carries
retry count `r + k`. -/
theorem writeChain_map_retry (b : Bool) (a : Option ℤ) (v : ℚ) (d : ℕ → Bool) :
    ∀ n r, 5 - r = n →
      (writeChain b a v d r).map (fun e => e.retry)
        = List.range' r (writeChain b a v d r).length := by
  intro n
  induction n with
  | zero =>
    intro r hn
    rw [writeChain, dif_neg (show ¬ r < 5 by omega)]
    rfl
  | succ n ih =>
    intro r hn
    rw [writeChain, dif_pos (show r < 5 by omega)]
    by_cases hd : d r
    · rw [if_pos hd]
      simp only [List.map_cons, List.length_cons]
      rw [ih (r + 1) (by omega), List.range'_succ]
    · rw [if_neg hd]
      rfl

/-- Every write of the chain schedules its verification check exactly
`100 * (retry + 1)` ms later, except the write at the retry cap, which
schedules none. -/
theorem writeChain_checkDelay (b : Bool) (a : Option ℤ) (v : ℚ) (d : ℕ → Bool) :
    ∀ n r, 5 - r = n → ∀ e ∈ writeChain b a v d r,
      e.checkDelay = if e.retry < 5 then some (100 * (e.retry + 1)) else none := by
  intro n
  induction n with
  | zero =>
    intro r hn e he
    rw [writeChain, dif_neg (show ¬ r < 5 by omega), List.mem_singleton] at he
    subst he
    rw [if_neg (show ¬ r < 5 by omega)]
  | succ n ih =>
    intro r hn e he
    rw [writeChain, dif_pos (show r < 5 by omega)] at he
    rcases List.mem_cons.mp he with he | he
    · subst he
      rw [if_pos (show r < 5 by omega)]
    · by_cases hd : d r
      · rw [if_pos hd] at he
        exact ih (r + 1) (by omega) e he
      · rw [if_neg hd] at he
        cases he

/-- A verification check that observes the desired value ends the chain:
the call that scheduled it is the last, and no further write occurs. -/
theorem writeChain_stops (b : Bool) (a : Option ℤ) (v : ℚ) (d : ℕ → Bool) (r : ℕ)
    (h : d r = false) :
    writeChain b a v d r
      = [⟨b, a, v, r, if r < 5 then some (100 * (r + 1)) else none⟩] := by
  rw [writeChain]
  by_cases hr : r < 5
  · rw [dif_pos hr, if_pos hr]
    have hd : ¬ (d r = true) := by simp [h]
    rw [if_neg hd]
  · rw [dif_neg hr, if_neg hr]

/-- When every read of the calibration chain succeeds with the register
values supplied by `calReadsOracle`, the chain computes exactly the
specification formula. -/
theorem calResult_calReadsOracle (mode vref vrefInt dev offset raw : ℕ) (pfx : String) :
    calResult (calReadsOracle mode vref vrefInt dev offset) pfx 1 raw
      = some (specCalibration mode vref vrefInt dev offset raw) := by
  by_cases hm : mode = 1
  · simp [calResult, calReadsOracle, promiseOf, specCalibration, hm]
  · simp [calResult, calReadsOracle, promiseOf, specCalibration, hm]

/-! ## Claim theorems -/

/-- C1 (counterexample): the claim asserts that the low 8 bits of the
first capability register word give the DI count and the high 8 bits the
DO count, so that the word `0b0000010000000010 = 1026` would yield DI
count 2 and DO count 4.  The code slices the most-significant-first
binary string as `bin.slice(0, 8)` for `di` and `bin.slice(8, 16)` for
`do`, so at 1026 it computes DI count 4 and DO count 2 — the claim is
false at that word. -/
theorem C1_capability_split_counterexample :
    ¬ ((groupCapabilities 1026).1 = 2 ∧ (groupCapabilities 1026).2 = 4) := by
  decide

/-- C1 (amended): for every group index `i` the capability read starts at
register `1001 + i * 100`, and for every 16-bit word the discovered DI
count is the value of bits 8–15 (the high byte) and the DO count the
value of bits 0–7 (the low byte); in particular `0b0000010000000010`
yields DI count 4 and DO count 2. -/
theorem C1_capability_discovery (i w : ℕ) (hw : w < 2 ^ 16) :
    capabilityRegister i = 1001 + i * 100 ∧
      groupCapabilities w = (w / 2 ^ 8, w % 2 ^ 8) :=
  ⟨rfl, groupCapabilities_eq w hw⟩

theorem C1_capability_discovery_witness :
    1026 < 2 ^ 16 ∧
      (capabilityRegister 0 = 1001 + 0 * 100 ∧
        groupCapabilities 1026 = (1026 / 2 ^ 8, 1026 % 2 ^ 8)) :=
  ⟨by decide, C1_capability_discovery 0 1026 (by decide)⟩

/-- C2: decoding a register word `w` into `L ≤ 16` boolean values stores
bit `i` of `w` (bit 0 least significant) at I/O index `i + 1` for every
`i < L`, whatever state the store started from; consequently re-encoding
the `L` decoded bits (index `j` as bit `j - 1`) reproduces exactly the
low `L` bits of `w`. -/
theorem C2_decode_roundtrip (s₀ : StateMap) (pfx : String) (w L : ℕ) (hL : L ≤ 16) :
    (∀ i, i < L →
      getState (storeDigitalState s₀ pfx w L).1 (pfx ++ "." ++ toString (i + 1))
        = some ((w / 2 ^ i % 2 : ℕ) : ℚ)) ∧
    ∑ i ∈ Finset.range L,
        (getState (storeDigitalState s₀ pfx w L).1 (pfx ++ "." ++ toString (i + 1))).getD 0
          * 2 ^ i
      = ((w % 2 ^ L : ℕ) : ℚ) := by
  have hlook : ∀ i, i < L →
      getState (storeDigitalState s₀ pfx w L).1 (pfx ++ "." ++ toString (i + 1))
        = some ((w / 2 ^ i % 2 : ℕ) : ℚ) := by
    intro i hi
    have h := storeDigital_fold_lookup pfx ((dec2bin w).reverse) L hL (s₀, []) i hi
    rwa [dec2bin_reverse_getD w i (by omega)] at h
  refine ⟨hlook, ?_⟩
  have hc : ∀ i ∈ Finset.range L,
      (getState (storeDigitalState s₀ pfx w L).1 (pfx ++ "." ++ toString (i + 1))).getD 0
          * (2 : ℚ) ^ i
        = ((w / 2 ^ i % 2 : ℕ) : ℚ) * 2 ^ i := by
    intro i hi
    rw [hlook i (Finset.mem_range.mp hi)]
    rfl
  rw [Finset.sum_congr rfl hc]
  exact_mod_cast congrArg (Nat.cast : ℕ → ℚ) (bit_sum_eq_mod_pow w L)

theorem C2_decode_roundtrip_witness :
    16 ≤ 16 ∧
      ((∀ i, i < 16 →
        getState (storeDigitalState [] "DI1" 43981 16).1 ("DI1" ++ "." ++ toString (i + 1))
          = some ((43981 / 2 ^ i % 2 : ℕ) : ℚ)) ∧
      ∑ i ∈ Finset.range 16,
          (getState (storeDigitalState [] "DI1" 43981 16).1
            ("DI1" ++ "." ++ toString (i + 1))).getD 0 * 2 ^ i
        = ((43981 % 2 ^ 16 : ℕ) : ℚ)) :=
  ⟨by decide, C2_decode_roundtrip [] "DI1" 43981 16 (by decide)⟩

/-- C3: a single write-and-verify chain (the one a `set` on a writable id
starts in `_writeCoil`, identically in `_writeRegister`) issues at most 6
transport writes in total (the initial write at retry count 0 plus at
most 5 retries), the `k`-th write carries retry count `k`, every write
below the retry cap schedules its verification check `100 * (retry + 1)`
milliseconds after itself while the write at the cap schedules none and
the chain just ends (returning a plain event list — there is no error
outcome in its type, so nothing is ever raised to the caller), and a
verification check that observes the desired value (`differs r = false`)
ends the chain with no further write. -/
theorem C3_write_verification_bounded (differs : ℕ → Bool) (isCoil : Bool)
    (addr : Option ℤ) (v : ℚ) :
    (writeChain isCoil addr v differs 0).length ≤ 6 ∧
    (writeChain isCoil addr v differs 0).map (fun e => e.retry)
      = List.range (writeChain isCoil addr v differs 0).length ∧
    (∀ e ∈ writeChain isCoil addr v differs 0,
      e.checkDelay = if e.retry < 5 then some (100 * (e.retry + 1)) else none) ∧
    (∀ r, differs r = false →
      writeChain isCoil addr v differs r
        = [⟨isCoil, addr, v, r, if r < 5 then some (100 * (r + 1)) else none⟩]) := by
  refine ⟨?_, ?_, ?_, ?_⟩
  · exact writeChain_length_le isCoil addr v differs 5 0 rfl (by omega)
  · rw [List.range_eq_range']
    exact writeChain_map_retry isCoil addr v differs 5 0 rfl
  · exact writeChain_checkDelay isCoil addr v differs 5 0 rfl
  · intro r h
    exact writeChain_stops isCoil addr v differs r h

theorem C3_write_verification_bounded_witness :
    (writeChain true (some 2) 1 (fun r => decide (r < 3)) 0).length ≤ 6 ∧
    (writeChain true (some 2) 1 (fun r => decide (r < 3)) 0).map (fun e => e.retry)
      = List.range (writeChain true (some 2) 1 (fun r => decide (r < 3)) 0).length ∧
    (∀ e ∈ writeChain true (some 2) 1 (fun r => decide (r < 3)) 0,
      e.checkDelay = if e.retry < 5 then some (100 * (e.retry + 1)) else none) ∧
    (∀ r, (fun r => decide (r < 3)) r = false →
      writeChain true (some 2) 1 (fun r => decide (r < 3)) r
        = [⟨true, some 2, 1, r, if r < 5 then some (100 * (r + 1)) else none⟩]) :=
  C3_write_verification_bounded (fun r => decide (r < 3)) true (some 2) 1

/-- C4 (bug evidence): for calibrated analog values the change-detection
compares against `this.getState(id)` where `id` is the numeric channel
argument `1`, i.e. against the never-written key `"1"`, instead of the
key `"AI1.1"` under which the value is stored.  Hence with a prior value
`1` stored for `"AI1.1"` and a new calibrated result `4.95 = 99/20`, the
pass stores the new value but emits no `'update'` event, although the
claim requires exactly one; the same comparison bug also makes the store
rewrite the entry on every pass. -/
theorem C4_analog_change_notification_bug :
    getState [("AI1.1", (1 : ℚ))] "AI1.1" = some 1 ∧
    (storeAnalogueState [("AI1.1", (1 : ℚ))] "AI" 1 1 2048
        (calReadsOracle 0 10000 10000 0 0)).2 = [] ∧
    getState (storeAnalogueState [("AI1.1", (1 : ℚ))] "AI" 1 1 2048
        (calReadsOracle 0 10000 10000 0 0)).1 "AI1.1" = some (99 / 20) := by
  refine ⟨rfl, ?_, ?_⟩
  · rw [storeAnalogueState, if_pos rfl, calResult_calReadsOracle]
    simp only [show toString (1 : ℕ) = "1" from by decide,
      show getState [("AI1.1", (1 : ℚ))] "1" = none from rfl, ne_eq, reduceCtorEq,
      not_false_eq_true, if_pos, not_true_eq_false, if_false]
  · rw [storeAnalogueState, if_pos rfl, calResult_calReadsOracle]
    simp only [show toString (1 : ℕ) = "1" from by decide,
      show getState [("AI1.1", (1 : ℚ))] "1" = none from rfl, ne_eq, reduceCtorEq,
      not_false_eq_true, if_pos]
    rw [getState_cons, if_pos (by decide)]
    norm_num [specCalibration, round2]

/-- C5: with every dependent read succeeding (register values supplied by
the oracle) and the channel-number key `"1"` unstored (as it always is —
state keys carry a type prefix), the group-1 channel-1 calibration pass
stores under `"AI1.1"` exactly
`round(3.3 * (vref/vrefInt) * scale * (raw/4096) * (1 + deviation/10000)
+ offset/1000, 2)` with `scale` 3 for mode 0, 10 for mode 1, 1 otherwise;
in particular mode 0, vref = vrefInt = 10000, deviation = offset = 0 and
raw = 2048 yield 4.95. -/
theorem C5_calibration_formula (mode vref vrefInt dev offset raw : ℕ) (st : StateMap)
    (h1 : getState st "1" = none) :
    getState (storeAnalogueState st "AI" 1 1 raw
        (calReadsOracle mode vref vrefInt dev offset)).1 "AI1.1"
      = some (specCalibration mode vref vrefInt dev offset raw) ∧
    specCalibration 0 10000 10000 0 0 2048 = 4.95 := by
  constructor
  · rw [storeAnalogueState, if_pos rfl, calResult_calReadsOracle]
    simp only [show toString (1 : ℕ) = "1" from by decide, h1, ne_eq, reduceCtorEq,
      not_false_eq_true, if_pos]
    rw [getState_cons, if_pos (by decide)]
  · norm_num [specCalibration, round2]

theorem C5_calibration_formula_witness :
    getState [] "1" = none ∧
      (getState (storeAnalogueState [] "AI" 1 1 2048
          (calReadsOracle 0 10000 10000 0 0)).1 "AI1.1"
        = some (specCalibration 0 10000 10000 0 0 2048) ∧
      specCalibration 0 10000 10000 0 0 2048 = 4.95) :=
  ⟨rfl, C5_calibration_formula 0 10000 10000 0 0 2048 [] rfl⟩

/-- C9: if any read of the group-1 calibration chain fails — the mode
read at 1019, the reference-voltage read at 1009, the internal-reference
read at 5, or the offset/deviation pair read at the mode-dependent pair
address — the calibration pass applies nothing: the state is returned
unchanged (so every stored entry is untouched), no `'update'` event is
emitted, and the values read earlier in the chain are discarded with the
aborted pass. -/
theorem C9_calibration_atomic (st : StateMap) (pfx : String) (chan raw : ℕ)
    (reads : ℕ → ℕ → Option (List ℕ))
    (h : reads 1019 1 = none ∨ reads 1009 1 = none ∨ reads 5 1 = none ∨
      reads (pairAddr (((reads 1019 1).getD []).getD 0 0) pfx) 2 = none) :
    storeAnalogueState st pfx 1 chan raw reads = (st, []) := by
  rw [storeAnalogueState, if_pos rfl]
  suffices hc : calResult reads pfx 1 raw = none by rw [hc]
  rcases h with h | h | h | h
  · simp [calResult, promiseOf, h]
  · rcases hm : reads 1019 1 with _ | l1
    · simp [calResult, promiseOf, hm]
    · simp [calResult, promiseOf, hm, h]
  · rcases hm : reads 1019 1 with _ | l1
    · simp [calResult, promiseOf, hm]
    · rcases hv : reads 1009 1 with _ | l2
      · simp [calResult, promiseOf, hm, hv]
      · simp [calResult, promiseOf, hm, hv, h]
  · rcases hm : reads 1019 1 with _ | l1
    · simp [calResult, promiseOf, hm]
    · rcases hv : reads 1009 1 with _ | l2
      · simp [calResult, promiseOf, hm, hv]
      · rcases hvi : reads 5 1 with _ | l3
        · simp [calResult, promiseOf, hm, hv, hvi]
        · rw [hm] at h
          by_cases hmode : l1.getD 0 0 = 1
          · simp only [pairAddr, hmode, Option.getD_some, ne_eq, not_true_eq_false,
              if_false] at h
            rw [List.getD_eq_getElem?_getD] at hmode
            simp [calResult, promiseOf, hm, hv, hvi, hmode, h]
          · simp only [pairAddr, Option.getD_some, ne_eq, hmode, not_false_eq_true,
              if_true] at h
            rw [List.getD_eq_getElem?_getD] at hmode
            simp [calResult, promiseOf, hm, hv, hvi, hmode, h]

theorem C9_calibration_atomic_witness :
    ((fun (_ : ℕ) (_ : ℕ) => (none : Option (List ℕ))) 1019 1 = none ∨
      (fun (_ : ℕ) (_ : ℕ) => (none : Option (List ℕ))) 1009 1 = none ∨
      (fun (_ : ℕ) (_ : ℕ) => (none : Option (List ℕ))) 5 1 = none ∨
      (fun (_ : ℕ) (_ : ℕ) => (none : Option (List ℕ)))
        (pairAddr ((((fun (_ : ℕ) (_ : ℕ) => (none : Option (List ℕ))) 1019 1).getD
          []).getD 0 0) "AI") 2 = none) ∧
    storeAnalogueState [("AI1.1", (1 : ℚ))] "AI" 1 1 2048
        (fun _ _ => none) = ([("AI1.1", (1 : ℚ))], []) :=
  ⟨Or.inl rfl,
    C9_calibration_atomic [("AI1.1", (1 : ℚ))] "AI" 1 2048 (fun _ _ => none) (Or.inl rfl)⟩

/-- C6 (counterexample): the claim says `set` on a valid AO id resolves a
register address and issues exactly one register write through the
transport; in the code the whole AO branch is commented out (TODO), so
`set("AO1.1", 1)` on a board knowing `AO1.1` issues zero transport
writes. -/
theorem C6_ao_write_counterexample :
    ¬ ((set [("AO1.1", (0 : ℚ))] none (fun _ => true) "AO1.1" 1).toOption.map
        (fun p => p.2.length) = some 1) := by
  decide

/-- C6 (amended): `set` on a valid id resolving to type AO is a silent
no-op — the register-write path is an empty TODO in the source, so no
transport write is issued, nothing is logged, and no error is raised. -/
theorem C6_ao_noop (st : StateMap) (g0 : Option (ℤ × ℤ)) (differs : ℕ → Bool)
    (id : String) (v : ℚ) (hid : getState st id ≠ none) (hty : setType id = "ao") :
    set st g0 differs id v = Except.ok ([], []) := by
  have hval : validate st id = Except.ok () := by rw [validate, if_neg hid]
  unfold set
  rw [hval]
  simp [hty]

theorem C6_ao_noop_witness :
    getState [("AO1.1", (0 : ℚ))] "AO1.1" ≠ none ∧ setType "AO1.1" = "ao" ∧
      set [("AO1.1", (0 : ℚ))] none (fun _ => true) "AO1.1" 1 = Except.ok ([], []) :=
  ⟨by decide, by decide,
    C6_ao_noop [("AO1.1", (0 : ℚ))] none (fun _ => true) "AO1.1" 1 (by decide) (by decide)⟩

/-- C7 (counterexample): the claim says validation runs before every
`get`, so `getState` on an id with no StateStore entry would raise the
`Unknown ID` error synchronously; but `getState` is a bare property
lookup with no error outcome — on the empty store it returns `undefined`
where the validated access of the claim returns the error. -/
theorem C7_get_validation_counterexample :
    (Except.ok (getState [] "DO1.1") : Except String (Option ℚ))
      ≠ specValidatedGetState [] "DO1.1" := by
  simp [specValidatedGetState, validate, getState]

/-- C7 (amended): `validate(id)` raises the `Unknown ID` error exactly
when the id has no StateStore entry, and `set` validates first, so `set`
on an unknown id raises that error synchronously; `getState`, however,
performs no validation and simply returns `undefined` for unknown ids. -/
theorem C7_validation (st : StateMap) (g0 : Option (ℤ × ℤ)) (differs : ℕ → Bool)
    (id : String) (v : ℚ) :
    (validate st id = Except.error ("Unknown ID: " ++ id) ↔ getState st id = none) ∧
    (getState st id = none →
      set st g0 differs id v = Except.error ("Unknown ID: " ++ id)) := by
  constructor
  · rw [validate]
    by_cases h : getState st id = none
    · simp [h]
    · simp [h]
  · intro h
    unfold set
    rw [validate, if_pos h]

theorem C7_validation_witness :
    (validate [] "DO1.1" = Except.error ("Unknown ID: " ++ "DO1.1")
        ↔ getState [] "DO1.1" = none) ∧
    (getState [] "DO1.1" = none →
      set [] none (fun _ => true) "DO1.1" 0 = Except.error ("Unknown ID: " ++ "DO1.1")) :=
  C7_validation [] none (fun _ => true) "DO1.1" 0

/-- C8: `set` on a valid id resolving to DI or AI is rejected with a
no-op: the branch only logs (`Cannot set state on digital/analog input`)
and returns — no transport write is issued, no error is raised, and
neither the state store nor the counters are touched (the embedded `set`
returns its complete effect and contains no store or counter update). -/
theorem C8_set_readonly_noop (st : StateMap) (g0 : Option (ℤ × ℤ)) (differs : ℕ → Bool)
    (id : String) (v : ℚ) (hid : getState st id ≠ none) :
    (setType id = "di" →
      set st g0 differs id v = Except.ok (["Cannot set state on digital input"], [])) ∧
    (setType id = "ai" →
      set st g0 differs id v = Except.ok (["Cannot set state on analog input"], [])) := by
  have hval : validate st id = Except.ok () := by rw [validate, if_neg hid]
  constructor
  · intro hty
    unfold set
    rw [hval]
    simp [hty]
  · intro hty
    unfold set
    rw [hval]
    simp [hty]

theorem C8_set_readonly_noop_witness :
    getState [("DI1.1", (0 : ℚ))] "DI1.1" ≠ none ∧ setType "DI1.1" = "di" ∧
      set [("DI1.1", (0 : ℚ))] none (fun _ => true) "DI1.1" 1
        = Except.ok (["Cannot set state on digital input"], []) :=
  ⟨by decide, by decide,
    (C8_set_readonly_noop [("DI1.1", (0 : ℚ))] none (fun _ => true) "DI1.1" 1
      (by decide)).1 (by decide)⟩

/-- C10: `set` on a valid id resolving to type LED with a group other
than 1 falls through every branch of the `else if` chain (the LED branch
requires `group === 1` and the id matches no other type), so it silently
does nothing: no transport write, no log entry, no error, and no state
or counter mutation. -/
theorem C10_led_other_group_noop (st : StateMap) (g0 : Option (ℤ × ℤ))
    (differs : ℕ → Bool) (id : String) (v : ℚ) (g : ℤ)
    (hid : getState st id ≠ none) (hty : setType id = "led")
    (hg : setGroup id = some g) (hg1 : g ≠ 1) :
    set st g0 differs id v = Except.ok ([], []) := by
  have hval : validate st id = Except.ok () := by rw [validate, if_neg hid]
  unfold set
  rw [hval]
  simp [hty, hg, hg1]

theorem C10_led_other_group_noop_witness :
    getState [("LED2.1", (0 : ℚ))] "LED2.1" ≠ none ∧ setType "LED2.1" = "led" ∧
      setGroup "LED2.1" = some 2 ∧ (2 : ℤ) ≠ 1 ∧
      set [("LED2.1", (0 : ℚ))] none (fun _ => true) "LED2.1" 1 = Except.ok ([], []) :=
  ⟨by decide, by decide, by decide, by decide,
    C10_led_other_group_noop [("LED2.1", (0 : ℚ))] none (fun _ => true) "LED2.1" 1 2
      (by decide) (by decide) (by decide) (by decide)⟩

end Board
